import Mathlib

/-!
Shallow embedding of the streaming PGN-header scan, aggregation and sampling
engine of `src/lichess-analysis.py` (`run_player_filter_and_sampling` and its
helpers), together with proofs about the claims of the specification.

Conventions of the embedding:
* Python strings are Lean `String`s; character-level work happens on `List Char`.
* Python's `re` patterns `TAG_RE = ^\[(\w+)\s+"(.+)"\]$` and
  `EVENT_RE = ^\[Event\s+".+"\]$` are embedded as executable matchers.
  `\w` and `\s` are modelled over their ASCII ranges (the archives and all
  claims use ASCII tag lines).
* Python `dict`s (the header map and the player table) are association lists
  with insertion-order preserved and last-write-wins updates, matching
  `dict` semantics for the operations the source performs.
* Machine integers do not overflow here (Python ints are unbounded), so
  ratings are `Int` and counters are `Nat`.
-/

/-- ASCII model of Python `str.strip` / regex `\s` whitespace. -/
def pyIsSpace (c : Char) : Bool :=
  c = ' ' || c = '\t' || c = '\n' || c = '\r' || c = '\x0b' || c = '\x0c'

/-- ASCII model of the regex class `\w` (letters, digits, underscore). -/
def isWordChar (c : Char) : Bool :=
  c.isAlphanum || c = '_'

/-- `str.strip()` on the character list: drop whitespace from both ends. -/
def stripL (l : List Char) : List Char :=
  ((l.dropWhile pyIsSpace).reverse.dropWhile pyIsSpace).reverse

/-- `line.strip()` from the main loop of `run_player_filter_and_sampling`. -/
def pyStrip (s : String) : String :=
  String.mk (stripL s.toList)

/-- Value of a nonempty digit string. -/
def digitsToNat (ds : List Char) : Nat :=
  ds.foldl (fun a c => a * 10 + (c.toNat - '0'.toNat)) 0

/-- Model of Python `int(s)` on the strings this program feeds it: optional
surrounding whitespace, optional sign, then a nonempty ASCII digit run;
anything else raises `ValueError`, modelled as `none`. -/
def pyInt (s : String) : Option Int :=
  match stripL s.toList with
  | '+' :: ds =>
    if ds ≠ [] && ds.all Char.isDigit then some (digitsToNat ds) else none
  | '-' :: ds =>
    if ds ≠ [] && ds.all Char.isDigit then some (-(digitsToNat ds : Int)) else none
  | ds =>
    if ds ≠ [] && ds.all Char.isDigit then some (digitsToNat ds) else none

/-- The `"(.+)"\]$` tail shared by `TAG_RE` and `EVENT_RE`: the input must be
`"` ++ value ++ `"]` with a nonempty value not containing a newline (`.` does
not match `\n`); the greedy `.+` captures everything up to the final `"]`. -/
def quotedValue (l : List Char) : Option (List Char) :=
  match l with
  | '"' :: r =>
    let v := r.dropLast.dropLast
    if r.length ≥ 3 && r.getLast? = some ']' && r.dropLast.getLast? = some '"'
        && v.all (fun c => c ≠ '\n') then
      some v
    else none
  | _ => none

/-- Embedding of `TAG_RE = re.compile(r'^\[(\w+)\s+"(.+)"\]$')` applied with
`.match` (anchored full-line match): returns the two capture groups.
Because `\w` and `\s` are disjoint and the quote is in neither class, the
backtracking match decomposes uniquely into the maximal word run, the maximal
whitespace run, and the quoted tail. -/
def tagMatchL (l : List Char) : Option (List Char × List Char) :=
  match l with
  | '[' :: r =>
    let name := r.takeWhile isWordChar
    let r1 := r.dropWhile isWordChar
    if name = [] then none
    else
      let ws := r1.takeWhile pyIsSpace
      let r2 := r1.dropWhile pyIsSpace
      if ws = [] then none
      else
        match quotedValue r2 with
        | some v => some (name, v)
        | none => none
  | _ => none

/-- `TAG_RE.match(line)` with the captures as strings. -/
def tagMatch (s : String) : Option (String × String) :=
  match tagMatchL s.toList with
  | some (n, v) => some (String.mk n, String.mk v)
  | none => none

/-- Embedding of `EVENT_RE = re.compile(r'^\[Event\s+".+"\]$')`.
A line matches `EVENT_RE` exactly when it matches `TAG_RE` with tag name
`Event`: the literal `Event` must be followed by `\s`, which forces the
maximal `\w+` run of `TAG_RE` to be exactly `Event`, and the remainder of the
two patterns coincide. -/
def eventMatch (s : String) : Bool :=
  match tagMatchL s.toList with
  | some (n, _) => n = ['E', 'v', 'e', 'n', 't']
  | none => false

/-- A completed or in-construction PGN header: Python `current_game`, a dict
from tag name to tag value (insertion-ordered, last write wins). -/
def GameHeader : Type := List (String × String)

instance : DecidableEq GameHeader := by
  unfold GameHeader; infer_instance

instance : Inhabited GameHeader := ⟨([] : List (String × String))⟩

/-- Python `d[k] = v` on an insertion-ordered dict modelled as an association
list: overwrite in place if the key exists, else append. -/
def setKV {α : Type} (l : List (String × α)) (k : String) (v : α) :
    List (String × α) :=
  match l with
  | [] => [(k, v)]
  | (k', v') :: rest =>
    if k' = k then (k, v) :: rest else (k', v') :: setKV rest k v

/-- Python `d.get(k)`: first (equivalently, under unique keys, only) binding. -/
def getKV {α : Type} (l : List (String × α)) (k : String) : Option α :=
  match l with
  | [] => none
  | (k', v') :: rest => if k' = k then some v' else getKV rest k

/-- A Python `datetime.datetime` restricted to the fields this program uses. -/
structure PyDateTime where
  year : Nat
  month : Nat
  day : Nat
  hour : Nat
  minute : Nat
  second : Nat
deriving DecidableEq, Repr

/-- Python `datetime` comparison: lexicographic on the six fields. -/
def dtLt (a b : PyDateTime) : Bool :=
  a.year < b.year || (a.year = b.year &&
    (a.month < b.month || (a.month = b.month &&
      (a.day < b.day || (a.day = b.day &&
        (a.hour < b.hour || (a.hour = b.hour &&
          (a.minute < b.minute || (a.minute = b.minute &&
            a.second < b.second)))))))))

/-- Length of a month, Gregorian rules, as `datetime` validates days. -/
def daysInMonth (y m : Nat) : Nat :=
  if m = 2 then
    if y % 4 = 0 && (y % 100 ≠ 0 || y % 400 = 0) then 29 else 28
  else if m = 4 || m = 6 || m = 9 || m = 11 then 30
  else 31

/-- One numeric field of `strptime`: the maximal digit run and the rest.
The surrounding literals of the format are non-digits, so a match must
consume digit runs whole. -/
def takeDigits (l : List Char) : List Char × List Char :=
  (l.takeWhile Char.isDigit, l.dropWhile Char.isDigit)

/-- `datetime.strptime(s, "%Y.%m.%d %H:%M:%S")`, then the `datetime`
constructor's range validation. Field syntax follows CPython `_strptime`:
`%Y` is exactly four digits; `%m`,`%d`,`%H`,`%M`,`%S` are one or two digits
with the ranges 1-12, 1-31, 0-23, 0-59, 0-61; the constructor then requires
`year ≥ 1`, a real calendar day, and `second ≤ 59` (leap seconds rejected). -/
def strptimeYmdHMS (s : String) : Option PyDateTime :=
  let (yd, r1) := takeDigits s.toList
  if yd.length ≠ 4 then none else
  match r1 with
  | '.' :: r2 =>
    let (md, r3) := takeDigits r2
    if md.length = 0 || md.length > 2 then none else
    match r3 with
    | '.' :: r4 =>
      let (dd, r5) := takeDigits r4
      if dd.length = 0 || dd.length > 2 then none else
      match r5 with
      | ' ' :: r6 =>
        let (hd, r7) := takeDigits r6
        if hd.length = 0 || hd.length > 2 then none else
        match r7 with
        | ':' :: r8 =>
          let (mid, r9) := takeDigits r8
          if mid.length = 0 || mid.length > 2 then none else
          match r9 with
          | ':' :: r10 =>
            let (sd, r11) := takeDigits r10
            if sd.length = 0 || sd.length > 2 then none else
            if r11 ≠ [] then none else
            let y := digitsToNat yd
            let m := digitsToNat md
            let d := digitsToNat dd
            let h := digitsToNat hd
            let mi := digitsToNat mid
            let sec := digitsToNat sd
            if 1 ≤ m && m ≤ 12 && 1 ≤ d && d ≤ 31 && h ≤ 23 && mi ≤ 59
                && sec ≤ 61 then
              if 1 ≤ y && d ≤ daysInMonth y m && sec ≤ 59 then
                some ⟨y, m, d, h, mi, sec⟩
              else none
            else none
          | _ => none
        | _ => none
      | _ => none
    | _ => none
  | _ => none

/-- Python f-string interpolation of a possibly-`None` value. -/
def optStr (o : Option String) : String :=
  match o with
  | none => "None"
  | some s => s

/-- `parse_pgn_timestamp(date_str, time_str)` from the source: join the two
fields with a space and `strptime` them; any `ValueError`/`TypeError`
(including a missing field, rendered `"None"` by the f-string) yields `None`. -/
def parse_pgn_timestamp (date_str time_str : Option String) : Option PyDateTime :=
  strptimeYmdHMS (optStr date_str ++ " " ++ optStr time_str)

/- --- CONFIGURATION constants of `lichess-analysis.py` --- -/

def TARGET_TIMECONTROL : String := "600+0"

def ALTERNATE_TIMECONTROL_1 : String := "600+5"

def ALTERNATE_TIMECONTROL_2 : String := "900+10"

def MAX_RATING : Int := 1000

def MIN_GAMES_JANUARY : Nat := 15

def TARGET_SAMPLE_SIZE : Nat := 5000

/-- One `player_stats` entry. `min_rating`/`max_rating` use `Option Int`,
where `none` embeds the `float('inf')`/`float('-inf')` "no data yet"
sentinels of the source. -/
structure PlayerStats where
  games : Nat
  min_rating : Option Int
  max_rating : Option Int
  rating_sum : Int
  rating_count : Nat
  earliest_time : PyDateTime
  latest_time : PyDateTime
  earliest_rating : Int
  latest_rating : Int
deriving DecidableEq, Repr

/-- The `defaultdict` initializer lambda of `player_stats`. -/
def initStats : PlayerStats where
  games := 0
  min_rating := none
  max_rating := none
  rating_sum := 0
  rating_count := 0
  earliest_time := ⟨2099, 1, 1, 0, 0, 0⟩
  latest_time := ⟨1900, 1, 1, 0, 0, 0⟩
  earliest_rating := 0
  latest_rating := 0

/-- `player_stats`: dict from username to stats. -/
def Table : Type := List (String × PlayerStats)

instance : DecidableEq Table := by
  unfold Table; infer_instance

instance : Inhabited Table := ⟨([] : List (String × PlayerStats))⟩

instance : Membership (String × PlayerStats) Table := by
  unfold Table; infer_instance

/-- `player_stats[p]` read through the `defaultdict` initializer. -/
def getStats (tbl : Table) (p : String) : PlayerStats :=
  (getKV tbl p).getD initStats

/-- Python truthiness of an `Optional[str]`: present and nonempty. -/
def pyTruthy (o : Option String) : Bool :=
  match o with
  | none => false
  | some s => s ≠ ""

/-- Lines 128-140 of `lichess-analysis.py`: the shared `try` block that turns
`WhiteElo`/`BlackElo` into `white_rating`/`black_rating`. Both conversions sit
in one `try ... except ValueError: pass`, so a `ValueError` while converting
the white rating aborts the block before the black rating is parsed: the
result is then `(None, None)` even when `BlackElo` is numeric. A rating that
parses but is `≤ 0` is set to `None` side-locally and does not abort. -/
def parseRatings (wstr bstr : Option String) : Option Int × Option Int :=
  if pyTruthy wstr then
    match pyInt (wstr.getD "") with
    | none => (none, none)
    | some n =>
      let w : Option Int := if n ≤ 0 then none else some n
      if pyTruthy bstr then
        match pyInt (bstr.getD "") with
        | none => (w, none)
        | some m => (w, if m ≤ 0 then none else some m)
      else (w, none)
  else
    if pyTruthy bstr then
      match pyInt (bstr.getD "") with
      | none => (none, none)
      | some m => (none, if m ≤ 0 then none else some m)
    else (none, none)

/-- `tc in (TARGET_TIMECONTROL, ALTERNATE_TIMECONTROL_1, ALTERNATE_TIMECONTROL_2)`
(`tc` may be `None`, which is in no tuple of strings). -/
def tcAccepted (tc : Option String) : Bool :=
  tc = some TARGET_TIMECONTROL || tc = some ALTERNATE_TIMECONTROL_1
    || tc = some ALTERNATE_TIMECONTROL_2

/-- `is_low_rating_game` (lines 143-144): inclusive OR across the two sides. -/
def is_low_rating_game (w b : Option Int) : Bool :=
  (match w with | some r => r ≤ MAX_RATING | none => false)
    || (match b with | some r => r ≤ MAX_RATING | none => false)

/-- One side's in-place stats mutation (lines 152-167 resp. 171-186):
bump the count, widen the extrema, feed the mean accumulators, and refresh
the earliest/latest rating snapshots on a strict timestamp comparison. -/
def updStats (s : PlayerStats) (dt : PyDateTime) (r : Int) : PlayerStats :=
  let s1 : PlayerStats :=
    { s with
      games := s.games + 1
      min_rating := some (match s.min_rating with | none => r | some m => min m r)
      max_rating := some (match s.max_rating with | none => r | some m => max m r)
      rating_sum := s.rating_sum + r
      rating_count := s.rating_count + 1 }
  let s2 : PlayerStats :=
    if dtLt dt s1.earliest_time then
      { s1 with earliest_time := dt, earliest_rating := r }
    else s1
  if dtLt s2.latest_time dt then
    { s2 with latest_time := dt, latest_rating := r }
  else s2

/-- `if white_player and white_rating is not None: ...` — the guarded update
of one side's player entry (the `defaultdict` creates the entry on first
access). -/
def updateSide (tbl : Table) (dt : PyDateTime) (pl : Option String)
    (r : Option Int) : Table :=
  match pl, r with
  | some q, some v =>
    if q ≠ "" then setKV tbl q (updStats (getStats tbl q) dt v) else tbl
  | _, _ => tbl

/-- Lines 113-186 (identically repeated at 214-273 for the final game):
what the scan does with one completed game header. The time-control filter
runs first; the rating parse and timestamp parse follow; the game updates
stats only if `is_low_rating_game` holds and the timestamp parsed; then each
side with a present name and a surviving rating is updated, white first. -/
def processGame (tbl : Table) (cg : GameHeader) : Table :=
  let tc := getKV cg "TimeControl"
  if tcAccepted tc then
    let wb := parseRatings (getKV cg "WhiteElo") (getKV cg "BlackElo")
    let game_dt := parse_pgn_timestamp (getKV cg "UTCDate") (getKV cg "UTCTime")
    if is_low_rating_game wb.1 wb.2 then
      match game_dt with
      | some dt =>
        let tbl1 := updateSide tbl dt (getKV cg "White") wb.1
        updateSide tbl1 dt (getKV cg "Black") wb.2
      | none => tbl
    else tbl
  else tbl

/-- `line.startswith('[')`: the first character is an opening bracket. -/
def startsWithLBracket (s : String) : Bool :=
  s.toList.head? = some '['

/-- The loop-carried mutable state of `run_player_filter_and_sampling`. -/
structure ScanState where
  player_stats : Table
  current_game : GameHeader
  game_count : Nat
deriving DecidableEq

/-- The initial state (lines 78-91). -/
def initState : ScanState where
  player_stats := []
  current_game := []
  game_count := 0

/-- One iteration of the main processing loop (lines 104-202): strip the
line; a game-start marker first flushes a nonempty `current_game` (counting
it and aggregating it), then resets the header with the marker's own tag;
any other `[`-line upserts its tag if it parses; everything else is ignored. -/
def stepLine (st : ScanState) (raw : String) : ScanState :=
  let line := pyStrip raw
  if eventMatch line then
    let st1 :=
      if st.current_game ≠ ([] : GameHeader) then
        { st with
          game_count := st.game_count + 1
          player_stats := processGame st.player_stats st.current_game }
      else st
    let cg : GameHeader :=
      match tagMatch line with
      | some (n, v) => setKV ([] : GameHeader) n v
      | none => []
    { st1 with current_game := cg }
  else if startsWithLBracket line then
    match tagMatch line with
    | some (n, v) => { st with current_game := setKV st.current_game n v }
    | none => st
  else st

/-- The state after the main loop has consumed the whole stream. -/
def linesFold (lines : List String) : ScanState :=
  lines.foldl stepLine initState

/-- The full scan: the main loop, then the end-of-stream flush of a still-open
game (lines 211-273, a verbatim copy of the in-loop flush). -/
def runScan (lines : List String) : ScanState :=
  let st := linesFold lines
  if st.current_game ≠ ([] : GameHeader) then
    { st with
      game_count := st.game_count + 1
      player_stats := processGame st.player_stats st.current_game }
  else st

/-- Ghost observer of the accumulator: starting from an open header `cg`,
the list of game headers the loop emits (flushes) over `lines`, and the
header still open afterwards. Mirrors the branch structure of `stepLine`. -/
def emitsFrom (cg : GameHeader) : List String → List GameHeader × GameHeader
  | [] => ([], cg)
  | raw :: rest =>
    let line := pyStrip raw
    if eventMatch line then
      let newcg : GameHeader :=
        match tagMatch line with
        | some (n, v) => setKV ([] : GameHeader) n v
        | none => []
      if cg ≠ ([] : GameHeader) then
        let p := emitsFrom newcg rest
        (cg :: p.1, p.2)
      else emitsFrom newcg rest
    else if startsWithLBracket line then
      match tagMatch line with
      | some (n, v) => emitsFrom (setKV cg n v) rest
      | none => emitsFrom cg rest
    else emitsFrom cg rest

/-- All headers a scan of `lines` processes: the in-loop emissions plus the
end-of-stream flush. -/
def totalEmits (lines : List String) : List GameHeader :=
  let p := emitsFrom ([] : GameHeader) lines
  p.1 ++ (if p.2 ≠ ([] : GameHeader) then [p.2] else [])

/-- Number of lines of the stream that match the game-start marker test. -/
def markerCount (lines : List String) : Nat :=
  (lines.filter (fun l => eventMatch (pyStrip l))).length

/-- `true` when no parsed header-tag line precedes the first game-start
marker, i.e. the stream opens no "orphan" header before its first marker. -/
def leadingTagFree : List String → Bool
  | [] => true
  | raw :: rest =>
    let line := pyStrip raw
    if eventMatch line then true
    else if (tagMatch line).isSome then false
    else leadingTagFree rest

/- --- AGGREGATION AND SAMPLING (lines 297-335) --- -/

/-- Lines 297-301 with the activity threshold as a parameter: keep players
with `games >= min_games` whose `min_rating` is not the `inf` sentinel. -/
def grinders_of (min_games : Nat) (tbl : Table) : Table :=
  tbl.filter (fun e => decide (e.2.games ≥ min_games) && e.2.min_rating.isSome)

/-- `grinders` with the source's constant threshold. -/
def grinders (tbl : Table) : Table :=
  grinders_of MIN_GAMES_JANUARY tbl

/-- `active_player_list = list(grinders.keys())`. -/
def active_player_list (tbl : Table) : List String :=
  (grinders tbl).map Prod.fst

/-- Model of `random.sample(pool, k)`: `k` times, draw an index below the
remaining pool size from the random stream `rnd` and remove the drawn
element. The numeric stream abstracts the seeded PRNG; any stream yields a
without-replacement draw of `k` distinct positions, which is the library
contract the program relies on. -/
def sampleGo {α : Type} (rnd : Nat → Nat) : Nat → Nat → List α → List α
  | _, 0, _ => []
  | _, _ + 1, [] => []
  | i, k + 1, a :: as =>
    let pool := a :: as
    let j := rnd i % pool.length
    pool.getD j a :: sampleGo rnd (i + 1) k (pool.eraseIdx j)

/-- `random.sample(population, k)` driven by the stream `rnd`. -/
def randomSample {α : Type} (rnd : Nat → Nat) (pool : List α) (k : Nat) :
    List α :=
  sampleGo rnd 0 k pool

/-- Lines 308-312 with the target size as a parameter: sample only when the
population exceeds the target, otherwise use the whole population. -/
def final_sample_keys_of (sample_size : Nat) (act : List String)
    (rnd : Nat → Nat) : List String :=
  if act.length > sample_size then randomSample rnd act sample_size else act

/-- `final_player_sample_keys` with the source's constant target size. -/
def final_player_sample_keys (tbl : Table) (rnd : Nat → Nat) : List String :=
  final_sample_keys_of TARGET_SAMPLE_SIZE (active_player_list tbl) rnd

/-- Round-half-to-even of the exact rational `s / c` (`c > 0`), the value of
Python `round(s / c)` whenever the float quotient is exact enough — true for
every sum/count this program produces at realistic magnitudes. -/
def pyRoundDiv (s : Int) (c : Nat) : Int :=
  let q := s / (c : Int)
  let r := s % (c : Int)
  if 2 * r < (c : Int) then q
  else if 2 * r > (c : Int) then q + 1
  else if q % 2 = 0 then q else q + 1

/-- One output row (lines 320-335): the f-string
`f"{username},{games},{min},{max},{avg},{earliest},{latest}"`. -/
def csvLine (username : String) (s : PlayerStats) : String :=
  username ++ "," ++ toString s.games ++ ","
    ++ toString (s.min_rating.getD 0) ++ ","
    ++ toString (s.max_rating.getD 0) ++ ","
    ++ toString (if s.rating_count > 0 then pyRoundDiv s.rating_sum s.rating_count else 0)
    ++ "," ++ toString s.earliest_rating ++ "," ++ toString s.latest_rating

/-- The fixed CSV header row (line 317). -/
def csvHeader : String :=
  "Username,Total_Games_January,Min_RATING_January,Max_RATING_January,Average_RATING,Earliest_RATING,Latest_RATING"

/-- `'\n'.join(output_lines)` (lines 316-340): the bytes written to the
output file. -/
def outputTable (g : Table) (keys : List String) : String :=
  String.intercalate "\n" (csvHeader :: keys.map (fun u => csvLine u (getStats g u)))

/-- Modelled from the spec: the seeded random stream. The source draws from
Python's global `random` module without seeding it (the spec notes the
original tool used non-reproducible randomness); the spec's contract requires
the stream to be a deterministic function of an explicit seed, embedded here
as a linear congruential stream. -/
def rngOfSeed (seed : Nat) : Nat → Nat :=
  fun i => (seed + 1) * 1103515245 * (i + 1) + 12345

/-- The whole pipeline on one input stream with one seed: scan, filter,
sample, serialize. -/
def run_pipeline (lines : List String) (seed : Nat) : String :=
  let st := runScan lines
  let g := grinders st.player_stats
  outputTable g (final_player_sample_keys st.player_stats (rngOfSeed seed))

/-- Ghost observer: the ratings one game attributes to player `p` on one
side, mirroring the guard of `updateSide`. -/
def sideContribs (pl : Option String) (r : Option Int) (p : String) : List Int :=
  match pl, r with
  | some q, some v => if q ≠ "" && q = p then [v] else []
  | _, _ => []

/-- Ghost observer: the ratings one completed header contributes to player
`p`, mirroring the guards of `processGame` (white side first). -/
def gameContribs (cg : GameHeader) (p : String) : List Int :=
  let tc := getKV cg "TimeControl"
  if tcAccepted tc then
    let wb := parseRatings (getKV cg "WhiteElo") (getKV cg "BlackElo")
    let game_dt := parse_pgn_timestamp (getKV cg "UTCDate") (getKV cg "UTCTime")
    if is_low_rating_game wb.1 wb.2 then
      match game_dt with
      | some _ =>
        sideContribs (getKV cg "White") wb.1 p
          ++ sideContribs (getKV cg "Black") wb.2 p
      | none => []
    else []
  else []

/-- Ghost observer: every rating a whole scan attributes to player `p`. -/
def scanContribs (lines : List String) (p : String) : List Int :=
  ((totalEmits lines).map (fun h => gameContribs h p)).flatten

/-- `none` embeds `+inf`: `a` is at most `b` as a minimum sentinel. -/
def optMinLE (a b : Option Int) : Bool :=
  match a, b with
  | _, none => true
  | some x, some y => x ≤ y
  | none, some _ => false

/-- `none` embeds `-inf`: `a` is at least `b` as a maximum sentinel. -/
def optMaxGE (a b : Option Int) : Bool :=
  match a, b with
  | _, none => true
  | some x, some y => y ≤ x
  | none, some _ => false

/-- Both extrema of `s` enclose the rating `r`. -/
def boundsOK (s : PlayerStats) (r : Int) : Bool :=
  match s.min_rating, s.max_rating with
  | some m, some M => m ≤ r && r ≤ M
  | _, _ => false

/- --- BASIC LEMMAS ON THE DICT MODEL --- -/

theorem getKV_setKV_self {α : Type} (l : List (String × α)) (k : String) (v : α) :
    getKV (setKV l k v) k = some v := by
  induction l with
  | nil => simp [setKV, getKV]
  | cons e rest ih =>
    obtain ⟨k', v'⟩ := e
    by_cases h : k' = k
    · simp [setKV, getKV, h]
    · simp [setKV, getKV, h, ih]

theorem getKV_setKV_ne {α : Type} (l : List (String × α)) (k k' : String)
    (v : α) (h : k ≠ k') : getKV (setKV l k v) k' = getKV l k' := by
  induction l with
  | nil => simp [setKV, getKV, h]
  | cons e rest ih =>
    obtain ⟨k0, v0⟩ := e
    by_cases h0 : k0 = k
    · subst h0
      simp [setKV, getKV, h]
    · by_cases h1 : k0 = k'
      · simp [setKV, getKV, h0, h1, Ne.symm h]
      · simp [setKV, getKV, h0, h1, ih]

theorem getStats_setKV (tbl : Table) (q p : String) (s : PlayerStats) :
    getStats (setKV tbl q s) p = if q = p then s else getStats tbl p := by
  by_cases h : q = p
  · subst h
    simp [getStats, getKV_setKV_self]
  · simp [getStats, h, getKV_setKV_ne tbl q p s h]

theorem getStats_nil (p : String) : getStats ([] : Table) p = initStats := by
  simp [getStats, getKV]

theorem getStats_updateSide (tbl : Table) (dt : PyDateTime) (pl : Option String)
    (r : Option Int) (p : String) :
    getStats (updateSide tbl dt pl r) p =
      (match pl, r with
       | some q, some v =>
         if q ≠ "" && q = p then updStats (getStats tbl p) dt v
         else getStats tbl p
       | _, _ => getStats tbl p) := by
  match pl, r with
  | none, none => rfl
  | none, some _ => rfl
  | some q, none => rfl
  | some q, some v =>
    by_cases hq : q = ""
    · simp [updateSide, hq]
    · by_cases hp : q = p
      · subst hp
        simp [updateSide, hq, getStats_setKV]
      · simp [updateSide, hq, hp, getStats_setKV]

/- --- THE ACCUMULATOR SIMULATION --- -/

theorem foldl_stepLine_emits (lines : List String) (ps : Table)
    (cg : GameHeader) (gc : Nat) :
    List.foldl stepLine ⟨ps, cg, gc⟩ lines =
      ⟨List.foldl processGame ps (emitsFrom cg lines).1,
       (emitsFrom cg lines).2,
       gc + (emitsFrom cg lines).1.length⟩ := by
  induction lines generalizing ps cg gc with
  | nil => simp [emitsFrom]
  | cons raw rest ih =>
    rw [List.foldl_cons]
    by_cases h1 : eventMatch (pyStrip raw) = true
    · by_cases hcg : cg = ([] : GameHeader)
      · subst hcg
        have hstep : stepLine ⟨ps, ([] : GameHeader), gc⟩ raw =
            ⟨ps, (match tagMatch (pyStrip raw) with
                  | some (n, v) => setKV ([] : GameHeader) n v
                  | none => ([] : GameHeader)), gc⟩ := by
          simp [stepLine, h1]
        rw [hstep, ih]
        simp [emitsFrom, h1]
      · have hstep : stepLine ⟨ps, cg, gc⟩ raw =
            ⟨processGame ps cg,
             (match tagMatch (pyStrip raw) with
              | some (n, v) => setKV ([] : GameHeader) n v
              | none => ([] : GameHeader)), gc + 1⟩ := by
          simp [stepLine, h1, hcg]
        rw [hstep, ih]
        simp only [emitsFrom, h1, if_true, hcg, ne_eq, not_false_iff, if_pos,
          List.foldl_cons, List.length_cons, ScanState.mk.injEq]
        refine ⟨trivial, trivial, by omega⟩
    · have h1' : eventMatch (pyStrip raw) = false := by
        simpa using h1
      by_cases h2 : startsWithLBracket (pyStrip raw) = true
      · cases htm : tagMatch (pyStrip raw) with
        | none =>
          have hstep : stepLine ⟨ps, cg, gc⟩ raw = ⟨ps, cg, gc⟩ := by
            simp [stepLine, h1', h2, htm]
          rw [hstep, ih]
          simp [emitsFrom, h1', h2, htm]
        | some nv =>
          obtain ⟨n, v⟩ := nv
          have hstep : stepLine ⟨ps, cg, gc⟩ raw = ⟨ps, setKV cg n v, gc⟩ := by
            simp [stepLine, h1', h2, htm]
          rw [hstep, ih]
          simp [emitsFrom, h1', h2, htm]
      · have h2' : startsWithLBracket (pyStrip raw) = false := by
          simpa using h2
        have hstep : stepLine ⟨ps, cg, gc⟩ raw = ⟨ps, cg, gc⟩ := by
          simp [stepLine, h1', h2']
        rw [hstep, ih]
        simp [emitsFrom, h1', h2']

theorem linesFold_eq (lines : List String) :
    linesFold lines =
      ⟨List.foldl processGame [] (emitsFrom ([] : GameHeader) lines).1,
       (emitsFrom ([] : GameHeader) lines).2,
       (emitsFrom ([] : GameHeader) lines).1.length⟩ := by
  have h := foldl_stepLine_emits lines [] ([] : GameHeader) 0
  simpa [linesFold, initState] using h

theorem runScan_player_stats (lines : List String) :
    (runScan lines).player_stats = List.foldl processGame [] (totalEmits lines) := by
  rw [runScan, linesFold_eq]
  by_cases hcg : (emitsFrom ([] : GameHeader) lines).2 = ([] : GameHeader)
  · simp [totalEmits, hcg]
  · simp [totalEmits, hcg, List.foldl_append]

theorem runScan_game_count (lines : List String) :
    (runScan lines).game_count = (totalEmits lines).length := by
  rw [runScan, linesFold_eq]
  by_cases hcg : (emitsFrom ([] : GameHeader) lines).2 = ([] : GameHeader)
  · simp [totalEmits, hcg]
  · simp [totalEmits, hcg]

/-- A line matching the start-marker test also matches the tag pattern
(so the reset header it seeds is nonempty). -/
theorem eventMatch_tagMatch {s : String} (h : eventMatch s = true) :
    ∃ v, tagMatch s = some ("Event", v) := by
  unfold eventMatch at h
  unfold tagMatch
  cases htm : tagMatchL s.toList with
  | none => rw [htm] at h; exact absurd h (by simp)
  | some nv =>
    obtain ⟨n, v⟩ := nv
    rw [htm] at h
    simp only [decide_eq_true_eq] at h
    refine ⟨String.mk v, ?_⟩
    simp [h]

/- --- FIELD LEMMAS FOR THE PER-SIDE UPDATE --- -/

theorem updStats_games (s : PlayerStats) (dt : PyDateTime) (r : Int) :
    (updStats s dt r).games = s.games + 1 := by
  simp only [updStats]
  split <;> split <;> rfl

theorem updStats_rating_count (s : PlayerStats) (dt : PyDateTime) (r : Int) :
    (updStats s dt r).rating_count = s.rating_count + 1 := by
  simp only [updStats]
  split <;> split <;> rfl

theorem updStats_min_rating (s : PlayerStats) (dt : PyDateTime) (r : Int) :
    (updStats s dt r).min_rating =
      some (match s.min_rating with | none => r | some m => min m r) := by
  simp only [updStats]
  split <;> split <;> rfl

theorem updStats_max_rating (s : PlayerStats) (dt : PyDateTime) (r : Int) :
    (updStats s dt r).max_rating =
      some (match s.max_rating with | none => r | some m => max m r) := by
  simp only [updStats]
  split <;> split <;> rfl

/-- C7: for a completed header that passes the time-control filter, if the
timestamp fields do not parse to a valid timestamp, the game produces no
stats update for either player: the player table is returned unchanged. -/
theorem c7_unparsable_timestamp_skips (tbl : Table) (cg : GameHeader)
    (htc : tcAccepted (getKV cg "TimeControl") = true)
    (hdt : parse_pgn_timestamp (getKV cg "UTCDate") (getKV cg "UTCTime") = none) :
    processGame tbl cg = tbl := by
  simp only [processGame, htc, if_true, hdt]
  split <;> rfl

/-- Witness for C7: a concrete qualifying-time-control header with both
rating tags valid but no `UTCDate`/`UTCTime` leaves the empty table empty. -/
theorem c7_unparsable_timestamp_skips_witness :
    processGame ([] : Table)
      [("Event", "e"), ("White", "w"), ("Black", "b"), ("WhiteElo", "900"),
       ("BlackElo", "800"), ("TimeControl", "600+0")] = ([] : Table) :=
  c7_unparsable_timestamp_skips _ _ (by decide) (by decide)

/-- A qualifying game with a parsed timestamp performs exactly the two
guarded side updates, white first. -/
theorem processGame_update (tbl : Table) (cg : GameHeader) (dt : PyDateTime)
    (w b : Option Int)
    (htc : tcAccepted (getKV cg "TimeControl") = true)
    (hr : parseRatings (getKV cg "WhiteElo") (getKV cg "BlackElo") = (w, b))
    (hdt : parse_pgn_timestamp (getKV cg "UTCDate") (getKV cg "UTCTime") = some dt)
    (hlow : is_low_rating_game w b = true) :
    processGame tbl cg =
      updateSide (updateSide tbl dt (getKV cg "White") w) dt
        (getKV cg "Black") b := by
  simp only [processGame, htc, if_true, hr, hdt, hlow]

/-- A non-qualifying game (no valid side rating at or below the ceiling)
leaves the table unchanged. -/
theorem processGame_not_low (tbl : Table) (cg : GameHeader) (w b : Option Int)
    (hr : parseRatings (getKV cg "WhiteElo") (getKV cg "BlackElo") = (w, b))
    (hlow : is_low_rating_game w b = false) :
    processGame tbl cg = tbl := by
  simp only [processGame, hr, hlow]
  split <;> simp

/-- Updating a side with no surviving rating is a no-op on the table. -/
theorem updateSide_none (tbl : Table) (dt : PyDateTime) (pl : Option String) :
    updateSide tbl dt pl none = tbl := by
  cases pl <;> rfl

/-- Reading the updated player after a hit. -/
theorem getStats_updateSide_hit (tbl : Table) (dt : PyDateTime) (q : String)
    (v : Int) (hq : q ≠ "") :
    getStats (updateSide tbl dt (some q) (some v)) q
      = updStats (getStats tbl q) dt v := by
  rw [getStats_updateSide]
  simp [hq]

/-- Reading another player after a side update. -/
theorem getStats_updateSide_miss (tbl : Table) (dt : PyDateTime) (q : String)
    (v : Int) (p : String) (h : q ≠ p) :
    getStats (updateSide tbl dt (some q) (some v)) p = getStats tbl p := by
  rw [getStats_updateSide]
  simp [h]

/-- C2: with an accepted time control and a parsed timestamp, a game with
both ratings surviving the parse qualifies exactly when at least one of them
is at most the ceiling (inclusive OR across sides); on a qualifying game both
named sides get their game count bumped — in particular a player whose own
rating exceeds the ceiling is still aggregated when the opponent qualifies —
and on a non-qualifying game the table is untouched. -/
theorem c2_qualification_inclusive_or (tbl : Table) (cg : GameHeader)
    (dt : PyDateTime) (wr br : Int) (wn bn : String)
    (htc : tcAccepted (getKV cg "TimeControl") = true)
    (hdt : parse_pgn_timestamp (getKV cg "UTCDate") (getKV cg "UTCTime") = some dt)
    (hr : parseRatings (getKV cg "WhiteElo") (getKV cg "BlackElo")
      = (some wr, some br))
    (hw : getKV cg "White" = some wn) (hwn : wn ≠ "")
    (hb : getKV cg "Black" = some bn) (hbn : bn ≠ "")
    (hne : wn ≠ bn) :
    ((wr ≤ MAX_RATING ∨ br ≤ MAX_RATING) →
      (getStats (processGame tbl cg) wn).games = (getStats tbl wn).games + 1 ∧
      (getStats (processGame tbl cg) bn).games = (getStats tbl bn).games + 1) ∧
    (¬(wr ≤ MAX_RATING ∨ br ≤ MAX_RATING) → processGame tbl cg = tbl) := by
  constructor
  · intro hor
    have hlow : is_low_rating_game (some wr) (some br) = true := by
      simp only [is_low_rating_game, Bool.or_eq_true, decide_eq_true_eq]
      exact hor
    rw [processGame_update tbl cg dt (some wr) (some br) htc hr hdt hlow,
      hw, hb]
    constructor
    · rw [getStats_updateSide_miss _ _ _ _ _ (Ne.symm hne),
        getStats_updateSide_hit _ _ _ _ hwn, updStats_games]
    · rw [getStats_updateSide_hit _ _ _ _ hbn, updStats_games,
        getStats_updateSide_miss _ _ _ _ _ hne]
  · intro hor
    have hlow : is_low_rating_game (some wr) (some br) = false := by
      simp only [is_low_rating_game, Bool.or_eq_false_iff, decide_eq_false_iff_not]
      push_neg at hor
      exact ⟨by simpa using hor.1, by simpa using hor.2⟩
    exact processGame_not_low tbl cg (some wr) (some br) hr hlow

/-- Witness for C2: a concrete game with `WhiteElo` 1500 (above the 1000
ceiling) and `BlackElo` 800 updates both players' game counts. -/
theorem c2_qualification_inclusive_or_witness :
    (getStats (processGame ([] : Table)
      [("Event", "e"), ("White", "w"), ("Black", "b"), ("WhiteElo", "1500"),
       ("BlackElo", "800"), ("TimeControl", "600+0"),
       ("UTCDate", "2024.01.01"), ("UTCTime", "10:00:00")]) "w").games
      = (getStats ([] : Table) "w").games + 1 ∧
    (getStats (processGame ([] : Table)
      [("Event", "e"), ("White", "w"), ("Black", "b"), ("WhiteElo", "1500"),
       ("BlackElo", "800"), ("TimeControl", "600+0"),
       ("UTCDate", "2024.01.01"), ("UTCTime", "10:00:00")]) "b").games
      = (getStats ([] : Table) "b").games + 1 :=
  (c2_qualification_inclusive_or ([] : Table) _ ⟨2024, 1, 1, 10, 0, 0⟩
    1500 800 "w" "b" (by decide) (by decide) (by decide) (by decide)
    (by decide) (by decide) (by decide) (by decide)).1
    (Or.inr (by decide))

/-- C1 counterexample: on an otherwise qualifying game (accepted time
control, valid timestamp, `BlackElo` 800 within the ceiling) the value
`WhiteElo = "abc"` makes the shared rating-parse `try` block abort before
the black rating is read, so — contrary to the claim — the black player's
entry is NOT updated: the whole update is skipped and the table stays empty. -/
theorem c1_nonnumeric_white_blocks_black_cex :
    processGame ([] : Table)
      [("Event", "e"), ("White", "w"), ("Black", "b"), ("WhiteElo", "abc"),
       ("BlackElo", "800"), ("TimeControl", "600+0"),
       ("UTCDate", "2024.01.01"), ("UTCTime", "10:00:00")] = ([] : Table) ∧
    (getStats (processGame ([] : Table)
      [("Event", "e"), ("White", "w"), ("Black", "b"), ("WhiteElo", "abc"),
       ("BlackElo", "800"), ("TimeControl", "600+0"),
       ("UTCDate", "2024.01.01"), ("UTCTime", "10:00:00")]) "b").games = 0 := by
  constructor
  · decide
  · decide

/-- C1 (amended): a rating tag that is missing or parses to a value ≤ 0 is
treated as absent for that side only, and a valid opposing side still gets
its full update; a NON-numeric rating string, however, aborts the shared
rating parse, so every side parsed after it is also treated as absent: with
a non-numeric `WhiteElo` no side is updated at all (in particular the black
entry is untouched even when `BlackElo` is valid and within the ceiling),
while a non-numeric `BlackElo` still leaves a valid white update intact.
No case raises an error. -/
theorem c1_rating_absence_amended :
    (∀ (tbl : Table) (cg : GameHeader) (dt : PyDateTime) (br : Int)
      (bs bn : String),
      tcAccepted (getKV cg "TimeControl") = true →
      parse_pgn_timestamp (getKV cg "UTCDate") (getKV cg "UTCTime") = some dt →
      getKV cg "WhiteElo" = none →
      getKV cg "BlackElo" = some bs → bs ≠ "" → pyInt bs = some br →
      0 < br → br ≤ MAX_RATING →
      getKV cg "Black" = some bn → bn ≠ "" →
      (getStats (processGame tbl cg) bn).games = (getStats tbl bn).games + 1) ∧
    (∀ (tbl : Table) (cg : GameHeader) (dt : PyDateTime) (n br : Int)
      (ws bs bn : String),
      tcAccepted (getKV cg "TimeControl") = true →
      parse_pgn_timestamp (getKV cg "UTCDate") (getKV cg "UTCTime") = some dt →
      getKV cg "WhiteElo" = some ws → ws ≠ "" → pyInt ws = some n → n ≤ 0 →
      getKV cg "BlackElo" = some bs → bs ≠ "" → pyInt bs = some br →
      0 < br → br ≤ MAX_RATING →
      getKV cg "Black" = some bn → bn ≠ "" →
      (getStats (processGame tbl cg) bn).games = (getStats tbl bn).games + 1) ∧
    (∀ (tbl : Table) (cg : GameHeader) (ws : String),
      getKV cg "WhiteElo" = some ws → ws ≠ "" → pyInt ws = none →
      processGame tbl cg = tbl) ∧
    (∀ (tbl : Table) (cg : GameHeader) (dt : PyDateTime) (wr : Int)
      (ws bs wn : String),
      tcAccepted (getKV cg "TimeControl") = true →
      parse_pgn_timestamp (getKV cg "UTCDate") (getKV cg "UTCTime") = some dt →
      getKV cg "WhiteElo" = some ws → ws ≠ "" → pyInt ws = some wr →
      0 < wr → wr ≤ MAX_RATING →
      getKV cg "BlackElo" = some bs → bs ≠ "" → pyInt bs = none →
      getKV cg "White" = some wn → wn ≠ "" →
      (getStats (processGame tbl cg) wn).games = (getStats tbl wn).games + 1) := by
  refine ⟨?_, ?_, ?_, ?_⟩
  · intro tbl cg dt br bs bn htc hdt hWm hBs hbs hbr h0 hceil hB hbn
    have hr : parseRatings (getKV cg "WhiteElo") (getKV cg "BlackElo")
        = (none, some br) := by
      simp [parseRatings, pyTruthy, hWm, hBs, hbs, hbr,
        show ¬br ≤ 0 by omega]
    have hlow : is_low_rating_game none (some br) = true := by
      simp [is_low_rating_game, hceil]
    rw [processGame_update tbl cg dt none (some br) htc hr hdt hlow,
      updateSide_none, hB, getStats_updateSide_hit _ _ _ _ hbn, updStats_games]
  · intro tbl cg dt n br ws bs bn htc hdt hWs hws hwn hn hBs hbs hbr h0 hceil hB hbn
    have hr : parseRatings (getKV cg "WhiteElo") (getKV cg "BlackElo")
        = (none, some br) := by
      simp [parseRatings, pyTruthy, hWs, hws, hwn, hn, hBs, hbs, hbr,
        show ¬br ≤ 0 by omega]
    have hlow : is_low_rating_game none (some br) = true := by
      simp [is_low_rating_game, hceil]
    rw [processGame_update tbl cg dt none (some br) htc hr hdt hlow,
      updateSide_none, hB, getStats_updateSide_hit _ _ _ _ hbn, updStats_games]
  · intro tbl cg ws hWs hws hwn
    have hr : parseRatings (getKV cg "WhiteElo") (getKV cg "BlackElo")
        = (none, none) := by
      simp [parseRatings, pyTruthy, hWs, hws, hwn]
    have hlow : is_low_rating_game none none = false := by
      simp [is_low_rating_game]
    exact processGame_not_low tbl cg none none hr hlow
  · intro tbl cg dt wr ws bs wn htc hdt hWs hws hwr h0 hceil hBs hbs hbn hW hwn
    have hr : parseRatings (getKV cg "WhiteElo") (getKV cg "BlackElo")
        = (some wr, none) := by
      simp [parseRatings, pyTruthy, hWs, hws, hwr, hBs, hbs, hbn,
        show ¬wr ≤ 0 by omega]
    have hlow : is_low_rating_game (some wr) none = true := by
      simp [is_low_rating_game, hceil]
    rw [processGame_update tbl cg dt (some wr) none htc hr hdt hlow,
      updateSide_none, hW, getStats_updateSide_hit _ _ _ _ hwn, updStats_games]

/-- Witness for the amended C1: a missing `WhiteElo` still lets black count;
a non-numeric `WhiteElo` suppresses every update; a non-numeric `BlackElo`
still lets a valid white side count. -/
theorem c1_rating_absence_amended_witness :
    (getStats (processGame ([] : Table)
      [("White", "w"), ("Black", "b"), ("BlackElo", "800"),
       ("TimeControl", "600+0"), ("UTCDate", "2024.01.01"),
       ("UTCTime", "10:00:00")]) "b").games
      = (getStats ([] : Table) "b").games + 1 ∧
    processGame ([] : Table)
      [("White", "w"), ("Black", "b"), ("WhiteElo", "xyz"),
       ("BlackElo", "800"), ("TimeControl", "600+0"),
       ("UTCDate", "2024.01.01"), ("UTCTime", "10:00:00")] = ([] : Table) ∧
    (getStats (processGame ([] : Table)
      [("White", "w"), ("Black", "b"), ("WhiteElo", "900"),
       ("BlackElo", "abc"), ("TimeControl", "600+0"),
       ("UTCDate", "2024.01.01"), ("UTCTime", "10:00:00")]) "w").games
      = (getStats ([] : Table) "w").games + 1 :=
  ⟨c1_rating_absence_amended.1 ([] : Table) _ ⟨2024, 1, 1, 10, 0, 0⟩ 800
      "800" "b" (by decide) (by decide) (by decide) (by decide) (by decide)
      (by decide) (by decide) (by decide) (by decide) (by decide),
   c1_rating_absence_amended.2.2.1 ([] : Table) _ "xyz" (by decide)
      (by decide) (by decide),
   c1_rating_absence_amended.2.2.2 ([] : Table) _ ⟨2024, 1, 1, 10, 0, 0⟩ 900
      "900" "abc" "w" (by decide) (by decide) (by decide) (by decide)
      (by decide) (by decide) (by decide) (by decide) (by decide) (by decide)
      (by decide) (by decide)⟩

/-- C3: when the last game header is still open at end of stream (no
trailing start marker closed it), the scan processes it exactly once: it
appears exactly once, in final position, among the processed headers; the
total-scanned-games counter exceeds the in-loop emission count by exactly
one; and the player table is the in-loop table with exactly one extra
`processGame` application of that final header. -/
theorem c3_final_open_game_once (lines : List String)
    (h : (linesFold lines).current_game ≠ ([] : GameHeader)) :
    totalEmits lines
      = (emitsFrom ([] : GameHeader) lines).1
        ++ [(linesFold lines).current_game] ∧
    (runScan lines).game_count
      = (emitsFrom ([] : GameHeader) lines).1.length + 1 ∧
    (runScan lines).player_stats
      = processGame
          (List.foldl processGame [] (emitsFrom ([] : GameHeader) lines).1)
          (linesFold lines).current_game := by
  have hfold := linesFold_eq lines
  have h2 : (emitsFrom ([] : GameHeader) lines).2 ≠ ([] : GameHeader) := by
    rw [hfold] at h
    exact h
  refine ⟨?_, ?_, ?_⟩
  · rw [hfold]
    simp [totalEmits, h2]
  · rw [runScan, hfold]
    simp [h2]
  · rw [runScan, hfold]
    simp [h2]

/-- Witness for C3: a two-line stream whose single game is never closed by a
second marker; the flush emits it once, counts it once, aggregates it once. -/
theorem c3_final_open_game_once_witness :
    totalEmits ["[Event \"e\"]", "[White \"w\"]"]
      = (emitsFrom ([] : GameHeader) ["[Event \"e\"]", "[White \"w\"]"]).1
        ++ [(linesFold ["[Event \"e\"]", "[White \"w\"]"]).current_game] ∧
    (runScan ["[Event \"e\"]", "[White \"w\"]"]).game_count
      = (emitsFrom ([] : GameHeader) ["[Event \"e\"]", "[White \"w\"]"]).1.length
        + 1 ∧
    (runScan ["[Event \"e\"]", "[White \"w\"]"]).player_stats
      = processGame
          (List.foldl processGame []
            (emitsFrom ([] : GameHeader) ["[Event \"e\"]", "[White \"w\"]"]).1)
          (linesFold ["[Event \"e\"]", "[White \"w\"]"]).current_game :=
  c3_final_open_game_once ["[Event \"e\"]", "[White \"w\"]"] (by decide)

theorem setKV_ne_nil {α : Type} (l : List (String × α)) (k : String) (v : α) :
    setKV l k v ≠ [] := by
  match l with
  | [] => simp [setKV]
  | (k', v') :: rest =>
    by_cases h : k' = k <;> simp [setKV, h]

theorem markerCount_cons (raw : String) (rest : List String) :
    markerCount (raw :: rest)
      = (if eventMatch (pyStrip raw) then 1 else 0) + markerCount rest := by
  by_cases h : eventMatch (pyStrip raw) = true
  · simp [markerCount, List.filter, h, Nat.add_comm]
  · simp only [Bool.not_eq_true] at h
    simp [markerCount, List.filter, h]

/-- Once a game is open it stays open, and from an open game every further
start marker emits exactly one header. -/
theorem emitsFrom_open (lines : List String) :
    ∀ cg : GameHeader, cg ≠ [] →
      (emitsFrom cg lines).2 ≠ ([] : GameHeader) ∧
      (emitsFrom cg lines).1.length = markerCount lines := by
  induction lines with
  | nil =>
    intro cg hcg
    exact ⟨hcg, by simp [emitsFrom, markerCount]⟩
  | cons raw rest ih =>
    intro cg hcg
    by_cases h1 : eventMatch (pyStrip raw) = true
    · obtain ⟨v, hv⟩ := eventMatch_tagMatch h1
      have hnew : (setKV ([] : GameHeader) "Event" v) ≠ [] := setKV_ne_nil _ _ _
      have := ih (setKV ([] : GameHeader) "Event" v) hnew
      constructor
      · simp only [emitsFrom, h1, if_true, hv, hcg, ne_eq, not_false_iff, if_pos]
        exact this.1
      · simp only [emitsFrom, h1, if_true, hv, hcg, ne_eq, not_false_iff, if_pos,
          List.length_cons, markerCount_cons, this.2]
        omega
    · have h1' : eventMatch (pyStrip raw) = false := by simpa using h1
      have hmc : markerCount (raw :: rest) = markerCount rest := by
        simp [markerCount_cons, h1']
      by_cases h2 : startsWithLBracket (pyStrip raw) = true
      · cases htm : tagMatch (pyStrip raw) with
        | none =>
          have := ih cg hcg
          constructor
          · simpa [emitsFrom, h1', h2, htm] using this.1
          · rw [hmc]
            simpa [emitsFrom, h1', h2, htm] using this.2
        | some nv =>
          obtain ⟨n, v⟩ := nv
          have := ih (setKV cg n v) (setKV_ne_nil _ _ _)
          constructor
          · simpa [emitsFrom, h1', h2, htm] using this.1
          · rw [hmc]
            simpa [emitsFrom, h1', h2, htm] using this.2
      · have h2' : startsWithLBracket (pyStrip raw) = false := by simpa using h2
        have := ih cg hcg
        constructor
        · simpa [emitsFrom, h1', h2'] using this.1
        · rw [hmc]
          simpa [emitsFrom, h1', h2'] using this.2

/-- C6 counterexample: a stream consisting of one parsed tag line and no
game-start marker. The orphan tag opens a header that the end-of-stream
flush counts as a game, so the total-scanned-games counter is 1 while the
number of start markers encountered is 0. -/
theorem c6_count_equals_markers_cex :
    (runScan ["[White \"x\"]"]).game_count = 1 ∧
    markerCount ["[White \"x\"]"] = 0 := by
  constructor
  · decide
  · decide

/-- C6 (amended): provided no parsed header-tag line precedes the first
game-start marker, the total-scanned-games counter at end of scan equals the
number of game-start markers encountered — independently of the headers'
time controls, so a header with a non-accepted time control still counts.
(If a tag line does precede the first marker, the orphan header it opens is
counted as one extra game.) -/
theorem c6_count_equals_markers_amended (lines : List String)
    (h : leadingTagFree lines = true) :
    (runScan lines).game_count = markerCount lines := by
  rw [runScan_game_count]
  induction lines with
  | nil => simp [totalEmits, emitsFrom, markerCount]
  | cons raw rest ih =>
    by_cases h1 : eventMatch (pyStrip raw) = true
    · obtain ⟨v, hv⟩ := eventMatch_tagMatch h1
      have hopen := emitsFrom_open rest (setKV ([] : GameHeader) "Event" v)
        (setKV_ne_nil _ _ _)
      rw [markerCount_cons]
      simp only [h1, if_true]
      simp only [totalEmits, emitsFrom, h1, if_true, hv, ne_eq,
        not_true_eq_false, if_neg, List.length_append]
      rw [if_neg (by simp)]
      simp only [hopen.1, ne_eq, not_false_iff, if_pos, List.length_append,
        List.length_singleton, hopen.2]
      omega
    · have h1' : eventMatch (pyStrip raw) = false := by simpa using h1
      have hmc : markerCount (raw :: rest) = markerCount rest := by
        simp [markerCount_cons, h1']
      rw [hmc]
      by_cases h2 : startsWithLBracket (pyStrip raw) = true
      · cases htm : tagMatch (pyStrip raw) with
        | none =>
          have hrest : leadingTagFree rest = true := by
            rw [leadingTagFree] at h
            simpa [h1', htm] using h
          have := ih hrest
          rw [totalEmits] at this ⊢
          simpa [emitsFrom, h1', h2, htm] using this
        | some nv =>
          exfalso
          rw [leadingTagFree] at h
          simp [h1', htm] at h
      · have h2' : startsWithLBracket (pyStrip raw) = false := by simpa using h2
        cases htm : tagMatch (pyStrip raw) with
        | none =>
          have hrest : leadingTagFree rest = true := by
            rw [leadingTagFree] at h
            simpa [h1', htm] using h
          have := ih hrest
          rw [totalEmits] at this ⊢
          simpa [emitsFrom, h1', h2'] using this
        | some nv =>
          exfalso
          rw [leadingTagFree] at h
          simp [h1', htm] at h

/-- Witness for the amended C6: two complete games and one non-accepted
time control; the counter equals the two markers seen. -/
theorem c6_count_equals_markers_amended_witness :
    (runScan ["[Event \"e\"]", "[TimeControl \"30+0\"]", "[Event \"f\"]",
      "[White \"w\"]"]).game_count
      = markerCount ["[Event \"e\"]", "[TimeControl \"30+0\"]", "[Event \"f\"]",
      "[White \"w\"]"] :=
  c6_count_equals_markers_amended _ (by decide)

theorem takeWhile_append_all {α : Type} (p : α → Bool) (l r : List α)
    (h : ∀ x ∈ l, p x = true) :
    (l ++ r).takeWhile p = l ++ r.takeWhile p := by
  induction l with
  | nil => simp
  | cons a t ih =>
    have ha := h a (by simp)
    simp [List.takeWhile_cons, ha, ih (fun x hx => h x (by simp [hx]))]

theorem dropWhile_append_all {α : Type} (p : α → Bool) (l r : List α)
    (h : ∀ x ∈ l, p x = true) :
    (l ++ r).dropWhile p = r.dropWhile p := by
  induction l with
  | nil => simp
  | cons a t ih =>
    have ha := h a (by simp)
    simp [List.dropWhile_cons, ha, ih (fun x hx => h x (by simp [hx]))]

theorem stripL_eq_self {l : List Char} {c c' : Char}
    (h1 : l.head? = some c) (hc : pyIsSpace c = false)
    (h2 : l.getLast? = some c') (hc' : pyIsSpace c' = false) :
    stripL l = l := by
  match l, h1 with
  | a :: t, h1 =>
    have ha : a = c := by simpa using h1
    subst ha
    unfold stripL
    rw [List.dropWhile_cons]
    simp only [hc, Bool.false_eq_true, if_false]
    cases hrev : (a :: t).reverse with
    | nil => simp at hrev
    | cons b rb =>
      have hb : b = c' := by
        have hh := List.head?_reverse (a :: t)
        rw [hrev, h2] at hh
        simpa using hh
      subst hb
      rw [List.dropWhile_cons]
      simp only [hc', Bool.false_eq_true, if_false]
      rw [← hrev, List.reverse_reverse]

/-- The tag pattern rejects a bracketed tag whose quoted value is empty:
the `.+` value group needs at least one character. -/
theorem tagMatchL_empty_value (name : List Char) (hne : name ≠ [])
    (hword : ∀ x ∈ name, isWordChar x = true) :
    tagMatchL ('[' :: (name ++ [' ', '"', '"', ']'])) = none := by
  have htake : (name ++ [' ', '"', '"', ']']).takeWhile isWordChar = name := by
    rw [takeWhile_append_all isWordChar name _ hword]
    simp [List.takeWhile_cons, isWordChar]
  have hdrop : (name ++ [' ', '"', '"', ']']).dropWhile isWordChar
      = [' ', '"', '"', ']'] := by
    rw [dropWhile_append_all isWordChar name _ hword]
    simp [List.dropWhile_cons, isWordChar]
  have hws : List.takeWhile pyIsSpace [' ', '"', '"', ']'] = [' '] := by decide
  have hr2 : List.dropWhile pyIsSpace [' ', '"', '"', ']'] = ['"', '"', ']'] := by
    decide
  have hqv : quotedValue ['"', '"', ']'] = none := by decide
  simp only [tagMatchL, htake, hdrop, hne, if_false, hws, hr2, hqv]
  simp

/-- C10: a line of the exact shape `[Name ""]` — any nonempty word-character
tag name with an empty quoted value — fails both the game-start test and the
tag parse, so the scan loop ignores it completely: it neither starts a new
game (even for `[Event ""]`) nor touches the open header or any other state. -/
theorem c10_empty_value_tag_inert (name : String)
    (hne : name.toList ≠ []) (hword : name.toList.all isWordChar = true) :
    eventMatch ("[" ++ name ++ " \"\"]") = false ∧
    tagMatch ("[" ++ name ++ " \"\"]") = none ∧
    ∀ st : ScanState, stepLine st ("[" ++ name ++ " \"\"]") = st := by
  have hl : ("[" ++ name ++ " \"\"]").toList
      = '[' :: (name.toList ++ [' ', '"', '"', ']']) := by
    simp [String.toList]
  have htagL : tagMatchL ('[' :: (name.toList ++ [' ', '"', '"', ']'])) = none :=
    tagMatchL_empty_value name.toList hne
      (fun x hx => List.all_eq_true.mp hword x hx)
  have htag : tagMatch ("[" ++ name ++ " \"\"]") = none := by
    unfold tagMatch
    rw [hl, htagL]
  have hev : eventMatch ("[" ++ name ++ " \"\"]") = false := by
    unfold eventMatch
    rw [hl, htagL]
  have hlast : ('[' :: (name.toList ++ [' ', '"', '"', ']'])).getLast?
      = some ']' := by
    rw [← List.cons_append, List.getLast?_append_of_ne_nil _ (by simp)]
    decide
  have hstrip : pyStrip ("[" ++ name ++ " \"\"]") = "[" ++ name ++ " \"\"]" := by
    unfold pyStrip
    rw [@stripL_eq_self (("[" ++ name ++ " \"\"]").toList) '[' ']'
      (by rw [hl]; rfl) (by decide) (by rw [hl]; exact hlast) (by decide)]
    rfl
  refine ⟨hev, htag, fun st => ?_⟩
  simp only [stepLine, hstrip, hev, Bool.false_eq_true, if_false, htag]
  split <;> rfl

/-- Witness for C10: the concrete line `[Event ""]` is inert on a running
scan state with an open header. -/
theorem c10_empty_value_tag_inert_witness :
    eventMatch ("[" ++ "Event" ++ " \"\"]") = false ∧
    tagMatch ("[" ++ "Event" ++ " \"\"]") = none ∧
    stepLine ⟨[("p", initStats)], [("Event", "e")], 3⟩
        ("[" ++ "Event" ++ " \"\"]")
      = ⟨[("p", initStats)], [("Event", "e")], 3⟩ := by
  have h := c10_empty_value_tag_inert "Event" (by decide) (by decide)
  exact ⟨h.1, h.2.1, h.2.2 _⟩

theorem optMinLE_refl (a : Option Int) : optMinLE a a = true := by
  cases a <;> simp [optMinLE]

theorem optMinLE_trans {a b c : Option Int} (h1 : optMinLE a b = true)
    (h2 : optMinLE b c = true) : optMinLE a c = true := by
  cases a <;> cases b <;> cases c <;> simp [optMinLE] at *
  omega

theorem optMaxGE_refl (a : Option Int) : optMaxGE a a = true := by
  cases a <;> simp [optMaxGE]

theorem optMaxGE_trans {a b c : Option Int} (h1 : optMaxGE a b = true)
    (h2 : optMaxGE b c = true) : optMaxGE a c = true := by
  cases a <;> cases b <;> cases c <;> simp [optMaxGE] at *
  omega

theorem updStats_min_le (s : PlayerStats) (dt : PyDateTime) (r : Int) :
    optMinLE (updStats s dt r).min_rating s.min_rating = true := by
  rw [updStats_min_rating]
  cases s.min_rating with
  | none => simp [optMinLE]
  | some m => simp [optMinLE]

theorem updStats_max_ge (s : PlayerStats) (dt : PyDateTime) (r : Int) :
    optMaxGE (updStats s dt r).max_rating s.max_rating = true := by
  rw [updStats_max_rating]
  cases s.max_rating with
  | none => simp [optMaxGE]
  | some m => simp [optMaxGE]

theorem updateSide_min_le (tbl : Table) (dt : PyDateTime) (pl : Option String)
    (r : Option Int) (p : String) :
    optMinLE (getStats (updateSide tbl dt pl r) p).min_rating
      (getStats tbl p).min_rating = true := by
  rw [getStats_updateSide]
  match pl, r with
  | none, none => exact optMinLE_refl _
  | none, some _ => exact optMinLE_refl _
  | some q, none => exact optMinLE_refl _
  | some q, some v =>
    by_cases h : (decide (q ≠ "") && decide (q = p)) = true
    · simp only [h, if_true]
      exact updStats_min_le _ _ _
    · simp only [Bool.not_eq_true] at h
      simp only [h, Bool.false_eq_true, if_false]
      exact optMinLE_refl _

theorem updateSide_max_ge (tbl : Table) (dt : PyDateTime) (pl : Option String)
    (r : Option Int) (p : String) :
    optMaxGE (getStats (updateSide tbl dt pl r) p).max_rating
      (getStats tbl p).max_rating = true := by
  rw [getStats_updateSide]
  match pl, r with
  | none, none => exact optMaxGE_refl _
  | none, some _ => exact optMaxGE_refl _
  | some q, none => exact optMaxGE_refl _
  | some q, some v =>
    by_cases h : (decide (q ≠ "") && decide (q = p)) = true
    · simp only [h, if_true]
      exact updStats_max_ge _ _ _
    · simp only [Bool.not_eq_true] at h
      simp only [h, Bool.false_eq_true, if_false]
      exact optMaxGE_refl _

theorem processGame_min_le (tbl : Table) (cg : GameHeader) (p : String) :
    optMinLE (getStats (processGame tbl cg) p).min_rating
      (getStats tbl p).min_rating = true := by
  simp only [processGame]
  split
  · split
    · split
      · exact optMinLE_trans (updateSide_min_le _ _ _ _ _)
          (updateSide_min_le _ _ _ _ _)
      · exact optMinLE_refl _
    · exact optMinLE_refl _
  · exact optMinLE_refl _

theorem processGame_max_ge (tbl : Table) (cg : GameHeader) (p : String) :
    optMaxGE (getStats (processGame tbl cg) p).max_rating
      (getStats tbl p).max_rating = true := by
  simp only [processGame]
  split
  · split
    · split
      · exact optMaxGE_trans (updateSide_max_ge _ _ _ _ _)
          (updateSide_max_ge _ _ _ _ _)
      · exact optMaxGE_refl _
    · exact optMaxGE_refl _
  · exact optMaxGE_refl _

theorem foldl_processGame_min_le (hs : List GameHeader) (tbl : Table)
    (p : String) :
    optMinLE (getStats (List.foldl processGame tbl hs) p).min_rating
      (getStats tbl p).min_rating = true := by
  induction hs generalizing tbl with
  | nil => exact optMinLE_refl _
  | cons h t ih =>
    exact optMinLE_trans (ih (processGame tbl h)) (processGame_min_le _ _ _)

theorem foldl_processGame_max_ge (hs : List GameHeader) (tbl : Table)
    (p : String) :
    optMaxGE (getStats (List.foldl processGame tbl hs) p).max_rating
      (getStats tbl p).max_rating = true := by
  induction hs generalizing tbl with
  | nil => exact optMaxGE_refl _
  | cons h t ih =>
    exact optMaxGE_trans (ih (processGame tbl h)) (processGame_max_ge _ _ _)

/-- C8: replaying any further sequence of game-header observations onto any
player table never increases a player's `min_rating` and never decreases
their `max_rating` (with the `inf`/`-inf` "no data" sentinels ordered above
resp. below every value): extrema only widen across an incremental replay. -/
theorem c8_extrema_monotone (hs : List GameHeader) (tbl : Table) (p : String) :
    (optMinLE (getStats (List.foldl processGame tbl hs) p).min_rating
        (getStats tbl p).min_rating
      && optMaxGE (getStats (List.foldl processGame tbl hs) p).max_rating
        (getStats tbl p).max_rating) = true := by
  rw [foldl_processGame_min_le, foldl_processGame_max_ge]
  rfl

theorem updateSide_rc (tbl : Table) (dt : PyDateTime) (pl : Option String)
    (r : Option Int)
    (h : ∀ q, (getStats tbl q).rating_count = (getStats tbl q).games) :
    ∀ q, (getStats (updateSide tbl dt pl r) q).rating_count
      = (getStats (updateSide tbl dt pl r) q).games := by
  intro q
  rw [getStats_updateSide]
  match pl, r with
  | none, none => exact h q
  | none, some _ => exact h q
  | some q', none => exact h q
  | some q', some v =>
    by_cases hq : (decide (q' ≠ "") && decide (q' = q)) = true
    · simp only [hq, if_true, updStats_rating_count, updStats_games, h q]
    · simp only [Bool.not_eq_true] at hq
      simp only [hq, Bool.false_eq_true, if_false]
      exact h q

theorem processGame_rc (tbl : Table) (cg : GameHeader)
    (h : ∀ q, (getStats tbl q).rating_count = (getStats tbl q).games) :
    ∀ q, (getStats (processGame tbl cg) q).rating_count
      = (getStats (processGame tbl cg) q).games := by
  simp only [processGame]
  split
  · split
    · split
      · exact updateSide_rc _ _ _ _ (updateSide_rc _ _ _ _ h)
      · exact h
    · exact h
  · exact h

theorem foldl_processGame_rc (hs : List GameHeader) (tbl : Table)
    (h : ∀ q, (getStats tbl q).rating_count = (getStats tbl q).games) :
    ∀ q, (getStats (List.foldl processGame tbl hs) q).rating_count
      = (getStats (List.foldl processGame tbl hs) q).games := by
  induction hs generalizing tbl with
  | nil => exact h
  | cons g t ih => exact ih (processGame tbl g) (processGame_rc _ _ h)

theorem boundsOK_mono {s s' : PlayerStats} {r : Int}
    (hmin : optMinLE s'.min_rating s.min_rating = true)
    (hmax : optMaxGE s'.max_rating s.max_rating = true)
    (h : boundsOK s r = true) : boundsOK s' r = true := by
  unfold boundsOK at *
  cases hsm : s.min_rating with
  | none => rw [hsm] at h; cases s.max_rating <;> simp at h
  | some m =>
    cases hsM : s.max_rating with
    | none => rw [hsm, hsM] at h; simp at h
    | some M =>
      rw [hsm, hsM] at h
      rw [hsm] at hmin
      rw [hsM] at hmax
      cases hsm' : s'.min_rating with
      | none => rw [hsm'] at hmin; simp [optMinLE] at hmin
      | some m' =>
        cases hsM' : s'.max_rating with
        | none => rw [hsM'] at hmax; simp [optMaxGE] at hmax
        | some M' =>
          rw [hsm'] at hmin
          rw [hsM'] at hmax
          simp only [optMinLE, decide_eq_true_eq] at hmin
          simp only [optMaxGE, decide_eq_true_eq] at hmax
          simp only [Bool.and_eq_true, decide_eq_true_eq] at h ⊢
          omega

theorem updStats_boundsOK_self (s : PlayerStats) (dt : PyDateTime) (r : Int) :
    boundsOK (updStats s dt r) r = true := by
  unfold boundsOK
  rw [updStats_min_rating, updStats_max_rating]
  cases s.min_rating <;> cases s.max_rating <;>
    simp [min_le_right, le_max_right]

theorem sideContribs_mem {pl : Option String} {w : Option Int} {p : String}
    {r : Int} (h : r ∈ sideContribs pl w p) :
    pl = some p ∧ p ≠ "" ∧ w = some r := by
  match pl, w with
  | none, none => simp [sideContribs] at h
  | none, some _ => simp [sideContribs] at h
  | some q, none => simp [sideContribs] at h
  | some q, some v =>
    simp only [sideContribs] at h
    by_cases hq : (decide (q ≠ "") && decide (q = p)) = true
    · rw [if_pos hq] at h
      simp only [List.mem_singleton] at h
      simp only [Bool.and_eq_true, decide_eq_true_eq] at hq
      subst h
      exact ⟨by rw [hq.2], by rw [← hq.2]; exact hq.1, rfl⟩
    · rw [if_neg hq] at h
      simp at h

theorem gameContribs_bounds (tbl : Table) (cg : GameHeader) (p : String)
    (r : Int) (hmem : r ∈ gameContribs cg p) :
    boundsOK (getStats (processGame tbl cg) p) r = true := by
  simp only [gameContribs] at hmem
  simp only [processGame]
  by_cases htc : tcAccepted (getKV cg "TimeControl") = true
  · simp only [htc, if_true] at hmem ⊢
    by_cases hlow : is_low_rating_game
        (parseRatings (getKV cg "WhiteElo") (getKV cg "BlackElo")).1
        (parseRatings (getKV cg "WhiteElo") (getKV cg "BlackElo")).2 = true
    · simp only [hlow, if_true] at hmem ⊢
      cases hdt : parse_pgn_timestamp (getKV cg "UTCDate") (getKV cg "UTCTime") with
      | none =>
        rw [hdt] at hmem
        simp at hmem
      | some dt =>
        rw [hdt] at hmem
        dsimp only at hmem ⊢
        rcases List.mem_append.mp hmem with hw | hb
        · obtain ⟨hW, hp, hwv⟩ := sideContribs_mem hw
          rw [hW, hwv]
          refine boundsOK_mono (updateSide_min_le _ _ _ _ _)
            (updateSide_max_ge _ _ _ _ _) ?_
          rw [getStats_updateSide_hit _ _ _ _ hp]
          exact updStats_boundsOK_self _ _ _
        · obtain ⟨hB, hp, hbv⟩ := sideContribs_mem hb
          rw [hB, hbv]
          rw [getStats_updateSide_hit _ _ _ _ hp]
          exact updStats_boundsOK_self _ _ _
    · simp only [Bool.not_eq_true] at hlow
      simp [hlow] at hmem
  · simp [htc] at hmem

theorem foldl_boundsOK (hs : List GameHeader) (tbl : Table) (p : String)
    (r : Int) (h : boundsOK (getStats tbl p) r = true) :
    boundsOK (getStats (List.foldl processGame tbl hs) p) r = true :=
  boundsOK_mono (foldl_processGame_min_le hs tbl p)
    (foldl_processGame_max_ge hs tbl p) h

theorem foldl_contribs_bounds (hs : List GameHeader) (tbl : Table) (p : String)
    (r : Int) (hmem : r ∈ (hs.map (fun g => gameContribs g p)).flatten) :
    boundsOK (getStats (List.foldl processGame tbl hs) p) r = true := by
  induction hs generalizing tbl with
  | nil => simp at hmem
  | cons g t ih =>
    simp only [List.map_cons, List.flatten_cons] at hmem
    rcases List.mem_append.mp hmem with hg | ht
    · exact foldl_boundsOK t (processGame tbl g) p r
        (gameContribs_bounds tbl g p r hg)
    · exact ih (processGame tbl g) ht

/-- C9: at end of scan (and hence, by instantiating `lines` with any prefix,
at every point during a scan), every player entry has `rating_count` equal to
`games`, and every rating that contributed to the entry lies between the
entry's `min_rating` and `max_rating`. -/
theorem c9_entry_invariants (lines : List String) (p : String) :
    (getStats (runScan lines).player_stats p).rating_count
      = (getStats (runScan lines).player_stats p).games ∧
    ∀ r ∈ scanContribs lines p,
      boundsOK (getStats (runScan lines).player_stats p) r = true := by
  rw [runScan_player_stats]
  constructor
  · exact foldl_processGame_rc (totalEmits lines) []
      (fun q => by simp [getStats_nil, initStats]) p
  · intro r hmem
    exact foldl_contribs_bounds (totalEmits lines) [] p r hmem

/-- Witness for C9: a one-game scan where white rated 900 and black rated
800; the invariants hold for the white player and their contribution 900. -/
theorem c9_entry_invariants_witness :
    (getStats (runScan ["[Event \"e\"]", "[White \"w\"]", "[Black \"b\"]",
        "[WhiteElo \"900\"]", "[BlackElo \"800\"]", "[TimeControl \"600+0\"]",
        "[UTCDate \"2024.01.01\"]", "[UTCTime \"10:00:00\"]"]).player_stats
      "w").rating_count
      = (getStats (runScan ["[Event \"e\"]", "[White \"w\"]", "[Black \"b\"]",
        "[WhiteElo \"900\"]", "[BlackElo \"800\"]", "[TimeControl \"600+0\"]",
        "[UTCDate \"2024.01.01\"]", "[UTCTime \"10:00:00\"]"]).player_stats
      "w").games ∧
    boundsOK (getStats (runScan ["[Event \"e\"]", "[White \"w\"]",
        "[Black \"b\"]", "[WhiteElo \"900\"]", "[BlackElo \"800\"]",
        "[TimeControl \"600+0\"]", "[UTCDate \"2024.01.01\"]",
        "[UTCTime \"10:00:00\"]"]).player_stats "w") 900 = true :=
  ⟨(c9_entry_invariants ["[Event \"e\"]", "[White \"w\"]", "[Black \"b\"]",
      "[WhiteElo \"900\"]", "[BlackElo \"800\"]", "[TimeControl \"600+0\"]",
      "[UTCDate \"2024.01.01\"]", "[UTCTime \"10:00:00\"]"] "w").1,
   (c9_entry_invariants ["[Event \"e\"]", "[White \"w\"]", "[Black \"b\"]",
      "[WhiteElo \"900\"]", "[BlackElo \"800\"]", "[TimeControl \"600+0\"]",
      "[UTCDate \"2024.01.01\"]", "[UTCTime \"10:00:00\"]"] "w").2 900
     (by decide)⟩

theorem perm_cons_eraseIdx {α : Type} :
    ∀ (l : List α) (j : Nat) (h : j < l.length),
      List.Perm l (l[j] :: l.eraseIdx j)
  | a :: as, 0, _ => by
    simp [List.eraseIdx]
  | a :: as, j + 1, h => by
    have h' : j < as.length := by simpa using h
    have ih := perm_cons_eraseIdx as j h'
    simp only [List.getElem_cons_succ, List.eraseIdx_cons_succ]
    exact (ih.cons a).trans (List.Perm.swap _ _ _)

theorem sampleGo_subperm {α : Type} (rnd : Nat → Nat) :
    ∀ (k i : Nat) (pool : List α),
      List.Subperm (sampleGo rnd i k pool) pool := by
  intro k
  induction k with
  | zero =>
    intro i pool
    simp only [sampleGo]
    exact List.nil_subperm
  | succ k ih =>
    intro i pool
    match pool with
    | [] =>
      simp only [sampleGo]
      exact List.nil_subperm
    | a :: as =>
      simp only [sampleGo]
      have hj : rnd i % (a :: as).length < (a :: as).length :=
        Nat.mod_lt _ (by simp)
      rw [List.getD_eq_getElem _ _ hj]
      have hcons := (List.subperm_cons
        ((a :: as)[rnd i % (a :: as).length])).mpr
        (ih (i + 1) ((a :: as).eraseIdx (rnd i % (a :: as).length)))
      exact hcons.trans (perm_cons_eraseIdx _ _ hj).symm.subperm

theorem sampleGo_length {α : Type} (rnd : Nat → Nat) :
    ∀ (k i : Nat) (pool : List α), k ≤ pool.length →
      (sampleGo rnd i k pool).length = k := by
  intro k
  induction k with
  | zero =>
    intro i pool _
    simp [sampleGo]
  | succ k ih =>
    intro i pool hk
    match pool with
    | [] => simp at hk
    | a :: as =>
      have hj : rnd i % (a :: as).length < (a :: as).length :=
        Nat.mod_lt _ (by simp)
      have hlen := List.length_eraseIdx_add_one hj
      have hk2 : k ≤ ((a :: as).eraseIdx (rnd i % (as.length + 1))).length := by
        simp only [List.length_cons] at hlen hk ⊢
        omega
      have hrec := ih (i + 1) ((a :: as).eraseIdx (rnd i % (as.length + 1))) hk2
      simp only [sampleGo, List.length_cons, hrec]

theorem sampleGo_nodup {α : Type} (rnd : Nat → Nat) (k i : Nat)
    (pool : List α) (hd : pool.Nodup) : (sampleGo rnd i k pool).Nodup := by
  obtain ⟨t, hperm, hsub⟩ := sampleGo_subperm rnd k i pool
  exact hperm.nodup (hd.sublist hsub)

theorem randomSample_length {α : Type} (rnd : Nat → Nat) (pool : List α)
    (k : Nat) (hk : k ≤ pool.length) : (randomSample rnd pool k).length = k :=
  sampleGo_length rnd k 0 pool hk

theorem randomSample_nodup {α : Type} (rnd : Nat → Nat) (pool : List α)
    (k : Nat) (hd : pool.Nodup) : (randomSample rnd pool k).Nodup :=
  sampleGo_nodup rnd k 0 pool hd

/-- C4: the filtered population is exactly the players with `games ≥
min_games` and a defined `min_rating`; when its size is at most the sample
size the output is the whole population unchanged, and otherwise the output
has exactly `sample_size` rows with every selected player appearing exactly
once (distinct, drawn without replacement). -/
theorem c4_sampler_contract (m k : Nat) (tbl : Table) (rnd : Nat → Nat)
    (hnd : (tbl.map Prod.fst).Nodup) :
    (∀ p, p ∈ (grinders_of m tbl).map Prod.fst ↔
      ∃ s : PlayerStats, (p, s) ∈ tbl ∧ s.games ≥ m
        ∧ s.min_rating.isSome = true) ∧
    (((grinders_of m tbl).map Prod.fst).length ≤ k →
      final_sample_keys_of k ((grinders_of m tbl).map Prod.fst) rnd
        = (grinders_of m tbl).map Prod.fst) ∧
    (((grinders_of m tbl).map Prod.fst).length > k →
      (final_sample_keys_of k ((grinders_of m tbl).map Prod.fst) rnd).length
        = k ∧
      (final_sample_keys_of k ((grinders_of m tbl).map Prod.fst) rnd).Nodup) := by
  have hact : ((grinders_of m tbl).map Prod.fst).Nodup := by
    have hsub : List.Sublist (grinders_of m tbl) tbl := List.filter_sublist tbl
    exact hnd.sublist (hsub.map Prod.fst)
  refine ⟨?_, ?_, ?_⟩
  · intro p
    constructor
    · intro hp
      obtain ⟨e, he, hfst⟩ := List.mem_map.mp hp
      obtain ⟨hmem, hpred⟩ := List.mem_filter.mp he
      have hpred2 : m ≤ e.2.games ∧ e.2.min_rating.isSome = true := by
        simpa using hpred
      refine ⟨e.2, ?_, hpred2.1, hpred2.2⟩
      have hme : (e.1, e.2) ∈ tbl := by simpa using hmem
      rw [hfst] at hme
      exact hme
    · rintro ⟨s, hmem, hg, hmin⟩
      refine List.mem_map.mpr ⟨(p, s), ?_, rfl⟩
      exact List.mem_filter.mpr ⟨hmem, by simp [hg, hmin]⟩
  · intro hle
    unfold final_sample_keys_of
    rw [if_neg (by omega)]
  · intro hgt
    unfold final_sample_keys_of
    rw [if_pos hgt]
    exact ⟨randomSample_length rnd _ k (by omega), randomSample_nodup rnd _ k hact⟩

/-- Witness for C4: a three-player table with two qualifying players; with
sample size 1 the output has one distinct row, with sample size 5000 the
whole filtered population is returned. -/
theorem c4_sampler_contract_witness :
    (final_sample_keys_of 1 ((grinders_of 15
      [("a", ⟨20, some 800, some 900, 1700, 2, ⟨2024, 1, 1, 0, 0, 0⟩,
        ⟨2024, 1, 2, 0, 0, 0⟩, 800, 900⟩),
       ("b", ⟨3, some 700, some 700, 700, 1, ⟨2024, 1, 1, 0, 0, 0⟩,
        ⟨2024, 1, 1, 0, 0, 0⟩, 700, 700⟩),
       ("c", ⟨25, some 950, some 990, 1940, 2, ⟨2024, 1, 3, 0, 0, 0⟩,
        ⟨2024, 1, 4, 0, 0, 0⟩, 950, 990⟩)]).map Prod.fst)
      (fun _ => 0)).length = 1 ∧
    final_sample_keys_of 5000 ((grinders_of 15
      [("a", ⟨20, some 800, some 900, 1700, 2, ⟨2024, 1, 1, 0, 0, 0⟩,
        ⟨2024, 1, 2, 0, 0, 0⟩, 800, 900⟩),
       ("b", ⟨3, some 700, some 700, 700, 1, ⟨2024, 1, 1, 0, 0, 0⟩,
        ⟨2024, 1, 1, 0, 0, 0⟩, 700, 700⟩),
       ("c", ⟨25, some 950, some 990, 1940, 2, ⟨2024, 1, 3, 0, 0, 0⟩,
        ⟨2024, 1, 4, 0, 0, 0⟩, 950, 990⟩)]).map Prod.fst)
      (fun _ => 0)
      = (grinders_of 15
      [("a", ⟨20, some 800, some 900, 1700, 2, ⟨2024, 1, 1, 0, 0, 0⟩,
        ⟨2024, 1, 2, 0, 0, 0⟩, 800, 900⟩),
       ("b", ⟨3, some 700, some 700, 700, 1, ⟨2024, 1, 1, 0, 0, 0⟩,
        ⟨2024, 1, 1, 0, 0, 0⟩, 700, 700⟩),
       ("c", ⟨25, some 950, some 990, 1940, 2, ⟨2024, 1, 3, 0, 0, 0⟩,
        ⟨2024, 1, 4, 0, 0, 0⟩, 950, 990⟩)]).map Prod.fst :=
  ⟨((c4_sampler_contract 15 1 _ (fun _ => 0) (by decide)).2.2
      (by decide)).1,
   (c4_sampler_contract 15 5000 _ (fun _ => 0) (by decide)).2.1
      (by decide)⟩

/-- C5: the scan-aggregate-sample-serialize pipeline is deterministic: two
runs on the same input stream with the same seed produce bit-identical
output tables. (The randomness source is the spec-modelled seeded stream
`rngOfSeed`; every other stage of the embedded pipeline is a pure function
of the input lines.) -/
theorem c5_pipeline_deterministic (lines : List String) (seed : Nat)
    (out1 out2 : String)
    (h1 : out1 = run_pipeline lines seed)
    (h2 : out2 = run_pipeline lines seed) : out1 = out2 :=
  h1.trans h2.symm

/-- Witness for C5: two runs over a one-game archive with seed 0 agree. -/
theorem c5_pipeline_deterministic_witness :
    run_pipeline ["[Event \"e\"]", "[White \"w\"]", "[Black \"b\"]",
        "[WhiteElo \"900\"]", "[BlackElo \"800\"]", "[TimeControl \"600+0\"]",
        "[UTCDate \"2024.01.01\"]", "[UTCTime \"10:00:00\"]"] 0
      = run_pipeline ["[Event \"e\"]", "[White \"w\"]", "[Black \"b\"]",
        "[WhiteElo \"900\"]", "[BlackElo \"800\"]", "[TimeControl \"600+0\"]",
        "[UTCDate \"2024.01.01\"]", "[UTCTime \"10:00:00\"]"] 0 :=
  c5_pipeline_deterministic _ 0 _ _ rfl rfl
